import Mathlib

/-!
Verification development for the kepoki agent runtime.

This file gives a shallow embedding, in Lean, of the parts of the kepoki
repository that the verified properties talk about:

* the streaming Response Assembler that lives in the agent turn handler
  (src/kepoki/src/runtime/agent.rs, Agent::run, lines 122-218);
* the command-drain loop of the Agent Task (Agent::run lines 86-109 and
  Agent::handle_command, lines 222-255);
* Runtime::send and Runtime::recv bookkeeping
  (src/kepoki/src/runtime/mod.rs, lines 104-150);
* the error-path of AnthropicClient::messages_stream and the
  AnthropicBackend::messages wrapper
  (src/anthropoki/src/lib.rs lines 654-697, src/kepoki-anthropic/src/lib.rs
  lines 91-123);
* the SSE-like frame parser MessageStream::recv
  (src/anthropoki/src/lib.rs lines 581-614).

Machine integers (usize indices) are modelled as Nat; Rust HashMap is
modelled as an insertion-ordered association list whose keys are kept unique
by the very guards the source code performs (the source only inserts a block
when the index is absent).  Rust HashMap::into_values yields its values in an
arbitrary order; the model fixes insertion order, and no theorem below relies
on that order.  Byte buffers are modelled as List Char: the source runs
String::from_utf8_lossy on each extracted line, and every property of
interest is independent of invalid-UTF-8 handling.  Panics (assert!, unwrap,
todo!, unreachable!) are modelled as explicit "panicked" outcome values.
-/

namespace Kepoki

/-- Identity of a running agent (runtime/mod.rs lines 22-27): a readable name
plus a unique instance id.  The 16-byte uuid is modelled as a Nat; only
freshness/equality of the id matters to the embedded properties. -/
structure AgentHandle where
  name : String
  uuid : Nat
deriving DecidableEq

/-- Modelled from the spec: the usage payload type is declared in the missing
kepoki backend module; token accounting is an explicit non-goal (spec section 1),
and no property depends on its fields, so it is modelled as an empty record. -/
structure Usage where
deriving DecidableEq

/-- Stop reasons, reconstructed from the conversion table in
src/kepoki-anthropic/src/lib.rs lines 330-339. -/
inductive StopReason
  | endTurn
  | maxTokens
  | stopSequence
  | toolUse
  | pauseTurn
  | refusal
deriving DecidableEq

/-- Image media types (kepoki-anthropic/src/lib.rs lines 249-256). -/
inductive ImageMediaType
  | jpeg
  | png
  | gif
  | webp
deriving DecidableEq

/-- Image sources (kepoki-anthropic/src/lib.rs lines 226-235). -/
inductive ImageSource
  | base64 (data : String) (media_type : ImageMediaType)
deriving DecidableEq

/-- Tool-result content (kepoki-anthropic/src/lib.rs lines 269-282). -/
inductive ToolResultContentBlock
  | text (text : String)
  | image (source : ImageSource)
deriving DecidableEq

/-- Content blocks of the kepoki backend model, reconstructed from the
conversions in kepoki-anthropic/src/lib.rs lines 163-224 and their uses in
runtime/agent.rs lines 160-202. -/
inductive ContentBlock
  | text (text : String)
  | image (source : ImageSource)
  | toolUse (id name input : String)
  | toolResult (tool_use_id : String)
      (content : Option (List ToolResultContentBlock)) (is_error : Option Bool)
deriving DecidableEq

/-- The message shell (kepoki-anthropic/src/lib.rs lines 132-140). -/
structure Message where
  id : String
  content : List ContentBlock
  stop_reason : Option StopReason
  stop_sequence : Option String
  usage : Option Usage
deriving DecidableEq

/-- Message delta payload (kepoki-anthropic/src/lib.rs lines 341-347 and the
field accesses in runtime/agent.rs lines 143-153). -/
structure MessageDelta where
  stop_reason : Option StopReason
  stop_sequence : Option String
  usage : Option Usage
deriving DecidableEq

/-- ContentBlockStart event payload (index is usize in the source). -/
structure ContentBlockStart where
  index : Nat
  content_block : ContentBlock
deriving DecidableEq

/-- ContentBlockStop event payload. -/
structure ContentBlockStop where
  index : Nat
deriving DecidableEq

/-- Content block delta payload (runtime/agent.rs lines 165-197). -/
inductive ContentBlockDelta
  | text (index : Nat) (text : String)
  | inputJson (index : Nat) (pjson : String)
deriving DecidableEq

/-- The canonical streaming event produced by every backend adapter
(the variant list mirrors the From impl in runtime/agent.rs lines 53-65). -/
inductive MessagesResponseEvent
  | ping
  | messageStart (message : Message)
  | messageDelta (delta : MessageDelta)
  | messageStop
  | contentBlockStart (e : ContentBlockStart)
  | contentBlockDelta (e : ContentBlockDelta)
  | contentBlockStop (e : ContentBlockStop)
deriving DecidableEq

/-- KepokiError (src/kepoki/src/error.rs).  Boxed payloads (RmcpError,
JoinError, dyn Error) are modelled by their display strings. -/
inductive KepokiError
  | mcpServerError (s : String)
  | joinFailed (s : String)
  | noRunningAgents
  | agentNotFound (h : AgentHandle)
  | agentManuallyTerminated (h : AgentHandle)
  | eventReceiverClosed (h : AgentHandle)
  | unexpectedEvent (h : AgentHandle)
  | noMessageReceived (h : AgentHandle)
  | customError (s : String)
deriving DecidableEq

/-- Display strings of KepokiError, from the thiserror attributes in
src/kepoki/src/error.rs (Display of an AgentHandle is its name,
runtime/mod.rs lines 29-33; customError is transparent). -/
def kepokiErrorDisplay : KepokiError → String
  | .mcpServerError s => "Error with MCP server: " ++ s
  | .joinFailed s => "Failed to join thread: " ++ s
  | .noRunningAgents => "Attempted to communicate with the runtime without running agents"
  | .agentNotFound h => "Agent does not exist: " ++ h.name
  | .agentManuallyTerminated h => "Agent manually terminated: " ++ h.name
  | .eventReceiverClosed h => "Agent event receiver closed unexpectedly: " ++ h.name
  | .unexpectedEvent h => "Unexpected event received for agent " ++ h.name
  | .noMessageReceived h => "No message received from backend for agent: " ++ h.name
  | .customError s => s

/-! ## Response Assembler (runtime/agent.rs, Agent::run lines 122-218)

The in-progress block map is `let mut blocks = HashMap::new()`; it is
modelled as an insertion-ordered association list.  The source inserts only
at absent keys (line 161 errors when `insert` returns Some), so keys stay
unique. -/

/-- HashMap::get on the block map. -/
def lookupBlock (bs : List (Nat × ContentBlock)) (i : Nat) : Option ContentBlock :=
  (bs.find? (fun p => p.1 == i)).map (fun p => p.2)

/-- HashMap::insert at an absent key (the only way the source inserts). -/
def insertBlock (bs : List (Nat × ContentBlock)) (i : Nat) (b : ContentBlock) :
    List (Nat × ContentBlock) :=
  bs ++ [(i, b)]

/-- In-place mutation through HashMap::get_mut at key i. -/
def setBlock (bs : List (Nat × ContentBlock)) (i : Nat) (b : ContentBlock) :
    List (Nat × ContentBlock) :=
  bs.map (fun p => if p.1 = i then (i, b) else p)

/-- HashMap::remove. -/
def removeBlock (bs : List (Nat × ContentBlock)) (i : Nat) :
    List (Nat × ContentBlock) :=
  bs.filter (fun p => p.1 != i)

/-- The mutable state of one streaming turn: `let mut message = None` and
`let mut blocks = HashMap::new()` (agent.rs lines 122-123). -/
structure TurnState where
  message : Option Message
  blocks : List (Nat × ContentBlock)
deriving DecidableEq

/-- Initial turn state. -/
def initialTurnState : TurnState := ⟨none, []⟩

/-- One iteration of the assembler match in Agent::run (agent.rs lines
129-203), for the agent with handle h.  Every error branch in the source
returns KepokiError::UnexpectedEvent(handle). -/
def stepEvent (h : AgentHandle) (st : TurnState) (e : MessagesResponseEvent) :
    Except KepokiError TurnState :=
  match e with
  | .ping => .ok st
  | .messageStart start =>
      if st.message.isSome then .error (.unexpectedEvent h)
      else .ok { st with message := some start }
  | .messageDelta delta =>
      match st.message with
      | none => .error (.unexpectedEvent h)
      | some m =>
        let m1 := match delta.stop_reason with
          | some r => { m with stop_reason := some r }
          | none => m
        let m2 := match delta.stop_sequence with
          | some sq => { m1 with stop_sequence := some sq }
          | none => m1
        let m3 := match delta.usage with
          | some u => { m2 with usage := some u }
          | none => m2
        .ok { st with message := some m3 }
  | .messageStop =>
      if st.message.isNone then .error (.unexpectedEvent h) else .ok st
  | .contentBlockStart cbs =>
      if (lookupBlock st.blocks cbs.index).isSome then .error (.unexpectedEvent h)
      else .ok { st with blocks := insertBlock st.blocks cbs.index cbs.content_block }
  | .contentBlockDelta (.text index text) =>
      match lookupBlock st.blocks index with
      | none => .error (.unexpectedEvent h)
      | some (.text blockText) =>
          .ok { st with blocks := setBlock st.blocks index (.text (blockText ++ text)) }
      | some _ => .error (.unexpectedEvent h)
  | .contentBlockDelta (.inputJson index pjson) =>
      match lookupBlock st.blocks index with
      | none => .error (.unexpectedEvent h)
      | some (.toolUse id name input) =>
          .ok { st with blocks := setBlock st.blocks index (.toolUse id name (input ++ pjson)) }
      | some _ => .error (.unexpectedEvent h)
  | .contentBlockStop cbs =>
      if (lookupBlock st.blocks cbs.index).isSome
      then .ok { st with blocks := removeBlock st.blocks cbs.index }
      else .ok st

/-- The whole turn: fold the assembler over the event stream, then finalize
exactly as agent.rs lines 206-218 does: on Some(msg) the content is set to
the values still in the block map (msg.content = blocks.into_values());
on None the turn fails with NoMessageReceived. -/
def runTurn (h : AgentHandle) (events : List MessagesResponseEvent) :
    Except KepokiError Message :=
  match events.foldlM (stepEvent h) initialTurnState with
  | .error e => .error e
  | .ok st =>
    match st.message with
    | some m => .ok { m with content := st.blocks.map (fun p => p.2) }
    | none => .error (.noMessageReceived h)

/-! ## Agent Task command handling (agent.rs lines 27-34, 86-109, 222-255) -/

/-- Commands accepted by an agent (agent.rs lines 27-34). -/
inductive AgentCommand
  | exit
  | pause
  | unpause
  | terminate
  | dumpState
  | userMessage (text : String)
deriving DecidableEq

/-- Message roles. -/
inductive Role
  | user
  | assistant
deriving DecidableEq

/-- An input message: role plus content blocks. -/
structure InputMessage where
  role : Role
  content : List ContentBlock
deriving DecidableEq

/-- Mutable per-agent state (agent.rs lines 69-73).  The immutable agent
definition field is omitted: it is never mutated and no embedded property
reads it (its temperature is an f32, outside this embedding). -/
structure AgentState where
  messages : List InputMessage
  paused : Bool
deriving DecidableEq

/-- Result of Agent::handle_command (agent.rs lines 222-255): Exit returns
ExitCode::SUCCESS; Terminate reaches the unreachable! panic branch
("Command not intercepted by the runtime"); everything else continues with
the updated state (DumpState also emits a StateDump event, which does not
change the state). -/
inductive CommandStep
  | exitSuccess
  | continued (s : AgentState)
  | panicked
deriving DecidableEq

/-- Agent::handle_command (agent.rs lines 222-255). -/
def handleCommand (s : AgentState) : AgentCommand → CommandStep
  | .exit => .exitSuccess
  | .pause => .continued { s with paused := true }
  | .unpause => .continued { s with paused := false }
  | .dumpState => .continued s
  | .userMessage text =>
      .continued { s with messages := s.messages ++ [⟨.user, [.text text]⟩] }
  | .terminate => .panicked

/-- Outcome of the command-drain loop at the top of Agent::run (lines
86-109) for a fixed queue of pending commands: with the queue drained
(TryRecvError::Empty), the loop breaks into a backend turn exactly when the
last history entry is a user message and the agent is not paused; otherwise
it sleeps and keeps idling. -/
inductive DrainOutcome
  | exited
  | beginTurn (s : AgentState)
  | idle (s : AgentState)
  | panicked
deriving DecidableEq

/-- The command-drain loop of Agent::run (lines 86-109) over the pending
command queue.  beginTurn s means the loop breaks and immediately calls
self.backend.messages(...) with history s.messages (lines 112-120). -/
def drainCommands (s : AgentState) : List AgentCommand → DrainOutcome
  | [] =>
    match s.messages.getLast? with
    | some m => if m.role = Role.user ∧ s.paused = false then .beginTurn s else .idle s
    | none => .idle s
  | c :: rest =>
    match handleCommand s c with
    | .exitSuccess => .exited
    | .continued s' => drainCommands s' rest
    | .panicked => .panicked

/-! ## Runtime (runtime/mod.rs lines 35-151) -/

/-- ExitCode values an agent task can return. -/
inductive ExitC
  | success
  | failure
deriving DecidableEq

instance {ε α : Type} [DecidableEq ε] [DecidableEq α] : DecidableEq (Except ε α) := fun x y =>
  match x, y with
  | .ok a, .ok b => if h : a = b then isTrue (by rw [h]) else isFalse (by simp [h])
  | .error a, .error b => if h : a = b then isTrue (by rw [h]) else isFalse (by simp [h])
  | .ok _, .error _ => isFalse (by simp)
  | .error _, .ok _ => isFalse (by simp)

/-- Events surfaced by the runtime (agent.rs lines 38-51). -/
inductive AgentEvent
  | ping
  | messageStart (m : Message)
  | messageDelta (d : MessageDelta)
  | messageStop
  | message (m : Message)
  | contentBlockStart (e : ContentBlockStart)
  | contentBlockDelta (e : ContentBlockDelta)
  | contentBlockStop (e : ContentBlockStop)
  | terminated (reason : String)
  | completed (h : AgentHandle)
  | stateDump (s : AgentState)
deriving DecidableEq

/-- Runtime bookkeeping for recv (runtime/mod.rs lines 37-44), restricted to
resolved futures: threadJoin holds the results of agent tasks that have
already finished (spawn_blocking join results, one per terminated agent);
recvJoin holds, per agent, the remaining contents of its event channel, with
the empty list meaning the channel has been closed (recv resolved to None).
Runtime::recv only ever returns by consuming one of these resolved entries;
a recv on a state where nothing has resolved blocks and is not modelled. -/
structure RecvState where
  threadJoin : List (AgentHandle × Except KepokiError ExitC)
  recvJoin : List (AgentHandle × List AgentEvent)
deriving DecidableEq

/-- Runtime::recv (runtime/mod.rs lines 121-150).  pickThread resolves the
select! race when both join sets have a completed task.  A completed thread
task yields Completed(handle) on Ok and Terminated(err.to_string()) on Err
(lines 129-132); a resolved event-channel task yields its event and re-arms
a new wait on the same receiver (lines 139-147), while a closed channel
(output None) yields Err(AgentNotFound(handle)) without re-arming
(line 140). -/
def recvStep (st : RecvState) (pickThread : Bool) :
    Except KepokiError AgentEvent × RecvState :=
  if st.threadJoin.isEmpty && st.recvJoin.isEmpty then
    (.error .noRunningAgents, st)
  else if !st.threadJoin.isEmpty && (pickThread || st.recvJoin.isEmpty) then
    match st.threadJoin with
    | [] => (.error .noRunningAgents, st)
    | (h, .ok _) :: rest => (.ok (.completed h), { st with threadJoin := rest })
    | (_, .error e) :: rest =>
        (.ok (.terminated (kepokiErrorDisplay e)), { st with threadJoin := rest })
  else
    match st.recvJoin with
    | [] => (.error .noRunningAgents, st)
    | (h, []) :: rest => (.error (.agentNotFound h), { st with recvJoin := rest })
    | (h, e :: es) :: rest =>
        (.ok e, { st with recvJoin := rest ++ [(h, es)] })

/-- The command-emitter map held by the runtime (runtime/mod.rs line 43),
with, per registered handle, whether the agent-side receiver is still alive
(an UnboundedSender::send fails exactly when the receiver was dropped). -/
structure SendState where
  commandEmitters : List (AgentHandle × Bool)
deriving DecidableEq

/-- HashMap::get on the command-emitter map. -/
def lookupEmitter (st : SendState) (h : AgentHandle) : Option Bool :=
  (st.commandEmitters.find? (fun p => p.1 == h)).map (fun p => p.2)

/-- Outcome of Runtime::send: Terminate hits the todo!() interception
(runtime/mod.rs lines 106-108) and panics. -/
inductive SendOutcome
  | ok
  | err (e : KepokiError)
  | panicked
deriving DecidableEq

/-- Runtime::send (runtime/mod.rs lines 104-119). -/
def send (st : SendState) (agent : AgentHandle) (command : AgentCommand) : SendOutcome :=
  if command = AgentCommand.terminate then .panicked
  else
    match lookupEmitter st agent with
    | some true => .ok
    | some false => .err (.agentNotFound agent)
    | none => .err (.agentNotFound agent)

end Kepoki

namespace Anthropoki

/-- Provider API error details (anthropoki/src/lib.rs lines 570-577). -/
structure ApiErrorDetails where
  type : String
  message : String
deriving DecidableEq

/-- Provider API error body (anthropoki/src/lib.rs lines 556-562). -/
structure ApiError where
  error : ApiErrorDetails
deriving DecidableEq

/-- Display of ApiError (anthropoki/src/lib.rs lines 564-568):
the error type, space-hyphen-space, the error message. -/
def apiErrorDisplay (e : ApiError) : String :=
  e.error.type ++ " - " ++ e.error.message

/-- AnthropicError (anthropoki/src/lib.rs lines 542-554); reqwest and serde
payloads are modelled by their display strings. -/
inductive AnthropicError
  | streamEnabled
  | streamNotEnabled
  | reqwest (s : String)
  | serde (s : String)
  | api (e : ApiError)
deriving DecidableEq

/-- Display of AnthropicError (thiserror attributes; Api and the payload
variants are transparent). -/
def anthropicErrorDisplay : AnthropicError → String
  | .streamEnabled => "You must set stream to false to use messages"
  | .streamNotEnabled => "You must set stream to true to use messages_stream"
  | .reqwest s => s
  | .serde s => s
  | .api e => apiErrorDisplay e

/-- The status handling of AnthropicClient::messages_stream after the HTTP
response arrives (anthropoki/src/lib.rs lines 675-696): on success a stream
handle is returned; on a non-success status the body text is decoded as an
ApiError (decodedBody is the serde result on errorText) and returned as
AnthropicError::Api, falling back to a synthetic ApiError carrying the
status code and raw body. -/
def messagesStreamStatusCheck (statusIsSuccess : Bool) (statusCode : Nat)
    (decodedBody : Option ApiError) (errorText : String) : Except AnthropicError Unit :=
  if statusIsSuccess then .ok ()
  else
    match decodedBody with
    | some apiErr => .error (.api apiErr)
    | none => .error (.api ⟨⟨"http_error_" ++ toString statusCode, errorText⟩⟩)

/-! ## The frame parser, MessageStream::recv (anthropoki/src/lib.rs 581-614)

The parser is generic in the decoded event type: the source decodes the
payload line with serde_json::from_str into Option of MessagesResponseEvent;
here the decoder is a parameter dec, and the event type a type parameter.
The byte buffer self.buf is represented by its complete newline-terminated
lines (each without its newline) plus the trailing partial line; self.stream
is a list of Chunk values, the end of the list being transport closure. -/

/-- One item of the transport byte stream: Some(Ok(bytes)) or Some(Err). -/
inductive Chunk
  | bytes (data : List Char)
  | ioErr (e : String)
deriving DecidableEq

/-- How a full drain of the stream ends. -/
inductive Terminal
  | eos
  | decodeError
  | transportError (e : String)
  | panicked
deriving DecidableEq

/-- Outcome of one MessageStream::recv call: frame d is Ok(data.unwrap())
(one complete frame consumed, d the decoded Option event); eos is Ok(None)
on transport closure; decodeError is the serde error propagated by the
question-mark on line 598; transportError is the reqwest error returned
verbatim on line 609; panicked covers the assert! on line 597 failing, the
unwrap on line 598 failing, and the unreachable! on line 600. -/
inductive RecvOut (α : Type)
  | frame (d : Option α)
  | eos
  | decodeError
  | transportError (e : String)
  | panicked
deriving DecidableEq

/-- Result of one recv call: the outcome plus the un-consumed parser state
(buffered complete lines, trailing partial-line bytes, remaining transport
items). -/
structure RecvResult (α : Type) where
  out : RecvOut α
  lines : List (List Char)
  pbuf : List Char
  chunks : List Chunk
deriving DecidableEq

/-- Prepend one non-newline byte to a line decomposition: it extends the
first complete line if there is one, else the (now leading) partial line. -/
def consLine (c : Char) : List (List Char) × List Char → List (List Char) × List Char
  | (l :: ls, p) => ((c :: l) :: ls, p)
  | ([], p) => ([], c :: p)

/-- Split a byte buffer into its complete newline-terminated lines (without
the newline) and the trailing bytes after the last newline; this is the
repeated `position(b == newline)` / `drain(..=at)` of lines 591-592. -/
def splitLines : List Char → List (List Char) × List Char
  | [] => ([], [])
  | c :: cs =>
    if c = '\n' then ([] :: (splitLines cs).1, (splitLines cs).2)
    else consLine c (splitLines cs)

/-- str::trim on a line (line 594); Rust trims Unicode whitespace, of which
only the ASCII subset can occur in the protocols modelled here. -/
def trimChars (l : List Char) : List Char :=
  ((l.dropWhile Char.isWhitespace).reverse.dropWhile Char.isWhitespace).reverse

/-- str::strip_prefix. -/
def dropPrefix? : List Char → List Char → Option (List Char)
  | [], l => some l
  | _ :: _, [] => none
  | p :: ps, c :: cs => if p = c then dropPrefix? ps cs else none

/-- What the per-call line loop does with the lines available in the buffer:
either it returns (ret), leaving the unconsumed lines, or it runs out of
complete lines (need) carrying the current lines_parsed counter and data
slot so the caller can pull the next chunk (lines 607-611). -/
inductive StepOut (α : Type)
  | ret (out : RecvOut α) (rest : List (List Char))
  | need (lp : Nat) (data : Option (Option α))
deriving DecidableEq

/-- The line loop of one recv call (lines 590-605): lines_parsed 0 asserts
the "event: " label prefix (panic on failure), 1 unwraps the "data: " prefix
(panic on failure) and decodes the payload (serde error propagated), 2
returns Ok(data.unwrap()) whatever the third line holds; lines_parsed never
reaches 3 within a call (the source marks it unreachable!). -/
def stepLines {α : Type} (dec : List Char → Except String (Option α)) :
    List (List Char) → Nat → Option (Option α) → StepOut α
  | [], lp, data => .need lp data
  | line :: rest, lp, data =>
    let l := trimChars line
    match lp with
    | 0 =>
      if (dropPrefix? ("event: ".toList) l).isSome then stepLines dec rest 1 data
      else .ret .panicked rest
    | 1 =>
      match dropPrefix? ("data: ".toList) l with
      | some payload =>
        match dec payload with
        | .ok d => stepLines dec rest 2 (some d)
        | .error _ => .ret .decodeError rest
      | none => .ret .panicked rest
    | 2 =>
      match data with
      | some d => .ret (.frame d) rest
      | none => .ret .panicked rest
    | _ => .ret .panicked rest

/-- One MessageStream::recv call over the remaining transport items: consume
buffered lines; when they run out, pull the next chunk into the buffer
(line 608), surface a transport error verbatim (line 609), or return
end-of-stream on closure (line 610). -/
def recvAux {α : Type} (dec : List Char → Except String (Option α)) :
    List Chunk → List (List Char) → List Char → Nat → Option (Option α) → RecvResult α
  | [], lines, pbuf, lp, data =>
    match stepLines dec lines lp data with
    | .ret out rest => ⟨out, rest, pbuf, []⟩
    | .need _ _ => ⟨.eos, [], pbuf, []⟩
  | .bytes bs :: chunksRest, lines, pbuf, lp, data =>
    match stepLines dec lines lp data with
    | .ret out rest => ⟨out, rest, pbuf, .bytes bs :: chunksRest⟩
    | .need lp' data' =>
      recvAux dec chunksRest (splitLines (pbuf ++ bs)).1 (splitLines (pbuf ++ bs)).2 lp' data'
  | .ioErr e :: chunksRest, lines, pbuf, lp, data =>
    match stepLines dec lines lp data with
    | .ret out rest => ⟨out, rest, pbuf, .ioErr e :: chunksRest⟩
    | .need _ _ => ⟨.transportError e, [], pbuf, chunksRest⟩

/-- MessageStream::recv from a raw byte buffer (a fresh call starts with
lines_parsed = 0 and data = None, lines 588-589). -/
def recv {α : Type} (dec : List Char → Except String (Option α))
    (buf : List Char) (chunks : List Chunk) : RecvResult α :=
  recvAux dec chunks (splitLines buf).1 (splitLines buf).2 0 none

/-- The drain of the buffered lines by repeated recv calls, flattened: after
a frame carrying an event the next call restarts at lines_parsed 0 with an
empty data slot; a frame carrying None ends the drain (the consumer loop
`while let Some(event) = stream.recv()` stops on Ok(None)). -/
inductive DrainStep (α : Type)
  | term (events : List α) (t : Terminal)
  | need (lp : Nat) (data : Option (Option α)) (events : List α)
deriving DecidableEq

/-- Line-level drain loop; mirrors stepLines, accumulating delivered events
and continuing past each complete frame exactly as consecutive recv calls
do. -/
def drainLines {α : Type} (dec : List Char → Except String (Option α)) :
    List (List Char) → Nat → Option (Option α) → List α → DrainStep α
  | [], lp, data, acc => .need lp data acc
  | line :: rest, lp, data, acc =>
    let l := trimChars line
    match lp with
    | 0 =>
      if (dropPrefix? ("event: ".toList) l).isSome then drainLines dec rest 1 data acc
      else .term acc .panicked
    | 1 =>
      match dropPrefix? ("data: ".toList) l with
      | some payload =>
        match dec payload with
        | .ok d => drainLines dec rest 2 (some d) acc
        | .error _ => .term acc .decodeError
      | none => .term acc .panicked
    | 2 =>
      match data with
      | some (some e) => drainLines dec rest 0 none (acc ++ [e])
      | some none => .term acc .eos
      | none => .term acc .panicked
    | _ => .term acc .panicked

/-- Full drain of the parser over the remaining transport items: the event
sequence delivered by repeatedly calling recv until it stops yielding
events, plus how the drain ended. -/
def drainAux {α : Type} (dec : List Char → Except String (Option α)) :
    List Chunk → List (List Char) → List Char → Nat → Option (Option α) → List α →
    List α × Terminal
  | [], lines, _, lp, data, acc =>
    match drainLines dec lines lp data acc with
    | .term events t => (events, t)
    | .need _ _ acc' => (acc', .eos)
  | .bytes bs :: chunksRest, lines, pbuf, lp, data, acc =>
    match drainLines dec lines lp data acc with
    | .term events t => (events, t)
    | .need lp' data' acc' =>
      drainAux dec chunksRest (splitLines (pbuf ++ bs)).1 (splitLines (pbuf ++ bs)).2
        lp' data' acc'
  | .ioErr e :: _, lines, _, lp, data, acc =>
    match drainLines dec lines lp data acc with
    | .term events t => (events, t)
    | .need _ _ acc' => (acc', .transportError e)

/-- Drain a fresh parser over a transport stream. -/
def drain {α : Type} (dec : List Char → Except String (Option α))
    (chunks : List Chunk) : List α × Terminal :=
  drainAux dec chunks [] [] 0 none []

/-- Reference drain over an already-assembled line list (no chunking). -/
def drainFlat {α : Type} (dec : List Char → Except String (Option α))
    (lines : List (List Char)) (lp : Nat) (data : Option (Option α)) (acc : List α) :
    List α × Terminal :=
  match drainLines dec lines lp data acc with
  | .term events t => (events, t)
  | .need _ _ acc' => (acc', .eos)

/-- A concrete decoder used by concrete instances below. -/
def dec0 : List Char → Except String (Option Unit) := fun _ => .ok (some ())

end Anthropoki

namespace KepokiAnthropic

/-- Result of code that may panic. -/
inductive PanicOr (α : Type)
  | value (a : α)
  | panicked
deriving DecidableEq

/-- Result::unwrap. -/
def resultUnwrap {ε α : Type} : Except ε α → PanicOr α
  | .ok a => .value a
  | .error _ => .panicked

/-- AnthropicBackend::messages (kepoki-anthropic/src/lib.rs lines 91-122):
it block_on's messages_stream, maps the error into
KepokiError::CustomError, then calls unwrap on that Result and wraps the
stream in Ok.  The unwrap panics whenever messages_stream failed, so the
function never returns an Err. -/
def backendMessages (streamResult : Except Anthropoki.AnthropicError Unit) :
    PanicOr (Except Kepoki.KepokiError Unit) :=
  match resultUnwrap (streamResult.mapError
      (fun e => Kepoki.KepokiError.customError (Anthropoki.anthropicErrorDisplay e))) with
  | .value s => .value (.ok s)
  | .panicked => .panicked

end KepokiAnthropic

namespace Kepoki

/-- A sample handle used by concrete instances. -/
def sampleHandle : AgentHandle := ⟨"agent", 0⟩

/-- A sample empty message shell as sent by MessageStart. -/
def sampleMessage : Message := ⟨"msg", [], none, none, none⟩

/-- The event stream of the spec's end-to-end scenario A: one text block,
opened, extended with "Hi!", stopped, then the message is stopped. -/
def scenarioAEvents : List MessagesResponseEvent :=
  [ .messageStart sampleMessage,
    .contentBlockStart ⟨0, .text ""⟩,
    .contentBlockDelta (.text 0 "Hi!"),
    .contentBlockStop ⟨0⟩,
    .messageDelta ⟨some .endTurn, none, none⟩,
    .messageStop ]

end Kepoki

namespace Kepoki

/-! ## Theorems about the Response Assembler -/

theorem stepEvent_message_mono (h : AgentHandle) (st st' : TurnState)
    (e : MessagesResponseEvent) (hok : stepEvent h st e = .ok st')
    (hsome : st.message.isSome = true) : st'.message.isSome = true := by
  cases e with
  | ping =>
      simp only [stepEvent] at hok
      injection hok with h1
      rw [← h1]; exact hsome
  | messageStart m =>
      simp only [stepEvent] at hok
      split at hok
      case isTrue hc => exact Except.noConfusion hok
      case isFalse hc => exact absurd hsome hc
  | messageDelta d =>
      simp only [stepEvent] at hok
      rcases hm : st.message with _ | m
      · rw [hm] at hok; exact Except.noConfusion hok
      · rw [hm] at hok; injection hok with h1; rw [← h1]; rfl
  | messageStop =>
      simp only [stepEvent] at hok
      split at hok
      case isTrue hc => exact Except.noConfusion hok
      case isFalse hc => injection hok with h1; rw [← h1]; exact hsome
  | contentBlockStart cbs =>
      simp only [stepEvent] at hok
      split at hok
      case isTrue hc => exact Except.noConfusion hok
      case isFalse hc => injection hok with h1; rw [← h1]; exact hsome
  | contentBlockDelta d =>
      cases d with
      | text i t =>
          simp only [stepEvent] at hok
          rcases hb : lookupBlock st.blocks i with _ | b
          · rw [hb] at hok; exact Except.noConfusion hok
          · rw [hb] at hok
            cases b <;> try exact Except.noConfusion hok
            case text bt => injection hok with h1; rw [← h1]; exact hsome
      | inputJson i pj =>
          simp only [stepEvent] at hok
          rcases hb : lookupBlock st.blocks i with _ | b
          · rw [hb] at hok; exact Except.noConfusion hok
          · rw [hb] at hok
            cases b <;> try exact Except.noConfusion hok
            case toolUse a1 a2 a3 => injection hok with h1; rw [← h1]; exact hsome
  | contentBlockStop cbs =>
      simp only [stepEvent] at hok
      split at hok
      · injection hok with h1; rw [← h1]; exact hsome
      · injection hok with h1; rw [← h1]; exact hsome

theorem stepEvent_messageStart_isSome (h : AgentHandle) (st st' : TurnState) (m : Message)
    (hok : stepEvent h st (.messageStart m) = .ok st') : st'.message.isSome = true := by
  simp only [stepEvent] at hok
  split at hok
  case isTrue hc => exact Except.noConfusion hok
  case isFalse hc => injection hok with h1; rw [← h1]; rfl

theorem stepEvent_messageStart_some_fails (h : AgentHandle) (st : TurnState) (m : Message)
    (hsome : st.message.isSome = true) :
    stepEvent h st (.messageStart m) = .error (.unexpectedEvent h) := by
  simp [stepEvent, hsome]

theorem foldlM_message_mono (h : AgentHandle) (l : List MessagesResponseEvent)
    (st st' : TurnState) (hok : l.foldlM (stepEvent h) st = .ok st')
    (hsome : st.message.isSome = true) : st'.message.isSome = true := by
  induction l generalizing st with
  | nil =>
      simp only [List.foldlM_nil] at hok
      injection hok with h1; rw [← h1]; exact hsome
  | cons a l ih =>
      rw [List.foldlM_cons] at hok
      rcases ha : stepEvent h st a with e | st1
      · rw [ha] at hok; exact Except.noConfusion hok
      · rw [ha] at hok
        exact ih st1 hok (stepEvent_message_mono h st st1 a ha hsome)

theorem foldlM_messageStart_isSome (h : AgentHandle) (l : List MessagesResponseEvent)
    (m : Message) (st st' : TurnState)
    (hok : l.foldlM (stepEvent h) st = .ok st')
    (hmem : MessagesResponseEvent.messageStart m ∈ l) :
    st'.message.isSome = true := by
  induction l generalizing st with
  | nil => simp at hmem
  | cons a l ih =>
      rw [List.foldlM_cons] at hok
      rcases ha : stepEvent h st a with e | st1
      · rw [ha] at hok; exact Except.noConfusion hok
      · rw [ha] at hok
        rcases List.mem_cons.mp hmem with heq | hmem'
        · rw [← heq] at ha
          exact foldlM_message_mono h l st1 st' hok
            (stepEvent_messageStart_isSome h st st1 m ha)
        · exact ih st1 hok hmem'

/-- Claim C1 (code divergence witness): on the spec's scenario-A event
sequence — open message, open text block 0, extend it with "Hi!", stop block
0, message delta, message stop — the assembler in Agent::run finalizes the
message with EMPTY content: ContentBlockStop removes the block from the very
map whose values become the final content (agent.rs lines 198-202 and 208),
so the stopped block's text "Hi!" is deleted, contradicting the claim that
stop events never delete content. -/
theorem c1_stop_deletes_content :
    (runTurn sampleHandle scenarioAEvents).map Message.content = Except.ok [] ∧
    (runTurn sampleHandle scenarioAEvents).map Message.content ≠
      Except.ok [ContentBlock.text "Hi!"] := by
  constructor
  · rfl
  · decide

/-- Claim C6: for every event sequence containing two MessageStart events,
the Response Assembler fails with the protocol-violation error
UnexpectedEvent at the second MessageStart: if the prefix before the second
MessageStart is accepted, stepping the second MessageStart errors, and the
whole sequence is rejected (agent.rs lines 131-137; MessageStop never clears
the open message, so this holds with or without an intervening
MessageStop). -/
theorem c6_second_message_start_fails (h : AgentHandle)
    (pre rest : List MessagesResponseEvent) (m m' : Message) (st : TurnState)
    (hpre : pre.foldlM (stepEvent h) initialTurnState = .ok st)
    (hmem : MessagesResponseEvent.messageStart m ∈ pre) :
    stepEvent h st (.messageStart m') = .error (.unexpectedEvent h) ∧
    (pre ++ MessagesResponseEvent.messageStart m' :: rest).foldlM (stepEvent h)
      initialTurnState = .error (.unexpectedEvent h) := by
  have hsome := foldlM_messageStart_isSome h pre m initialTurnState st hpre hmem
  have hstep := stepEvent_messageStart_some_fails h st m' hsome
  refine ⟨hstep, ?_⟩
  rw [List.foldlM_append, hpre]
  show (MessagesResponseEvent.messageStart m' :: rest).foldlM (stepEvent h) st = _
  rw [List.foldlM_cons, hstep]
  rfl

/-- Witness for C6 at a concrete input: the one-event prefix
[MessageStart sampleMessage] is accepted and a second MessageStart fails. -/
theorem c6_second_message_start_witness :
    stepEvent sampleHandle ⟨some sampleMessage, []⟩ (.messageStart sampleMessage) =
      .error (.unexpectedEvent sampleHandle) ∧
    ([MessagesResponseEvent.messageStart sampleMessage] ++
        MessagesResponseEvent.messageStart sampleMessage :: []).foldlM
      (stepEvent sampleHandle) initialTurnState =
      .error (.unexpectedEvent sampleHandle) :=
  c6_second_message_start_fails sampleHandle
    [MessagesResponseEvent.messageStart sampleMessage] [] sampleMessage sampleMessage
    ⟨some sampleMessage, []⟩ (by decide) (by decide)

/-- Claim C7: whenever the Response Assembler receives a Text delta for an
index whose open block is a ToolUse block, it fails with the protocol
violation UnexpectedEvent; symmetrically, an InputJson delta for an index
whose open block is a Text block always fails with UnexpectedEvent
(agent.rs lines 165-197).  Each half holds for every assembler state on its
own, with no assumption about any other block. -/
theorem c7_delta_type_mismatch_fails :
    (∀ (h : AgentHandle) (st : TurnState) (i : Nat) (t tid tname tinput : String),
      lookupBlock st.blocks i = some (.toolUse tid tname tinput) →
      stepEvent h st (.contentBlockDelta (.text i t)) = .error (.unexpectedEvent h)) ∧
    (∀ (h : AgentHandle) (st : TurnState) (j : Nat) (pj ttext : String),
      lookupBlock st.blocks j = some (.text ttext) →
      stepEvent h st (.contentBlockDelta (.inputJson j pj)) = .error (.unexpectedEvent h)) := by
  constructor
  · intro h st i t tid tname tinput hi
    simp [stepEvent, hi]
  · intro h st j pj ttext hj
    simp [stepEvent, hj]

/-- Witness for C7 at concrete lone-block states: a state whose only open
block is a ToolUse block at index 0 rejects a Text delta for index 0, and a
state whose only open block is a Text block at index 0 rejects an InputJson
delta for index 0. -/
theorem c7_delta_type_mismatch_witness :
    stepEvent sampleHandle ⟨none, [(0, .toolUse "tid" "tool" "")]⟩
        (.contentBlockDelta (.text 0 "x")) = .error (.unexpectedEvent sampleHandle) ∧
    stepEvent sampleHandle ⟨none, [(0, .text "hi")]⟩
        (.contentBlockDelta (.inputJson 0 "y")) = .error (.unexpectedEvent sampleHandle) :=
  ⟨c7_delta_type_mismatch_fails.1 sampleHandle ⟨none, [(0, .toolUse "tid" "tool" "")]⟩
      0 "x" "tid" "tool" "" (by decide),
    c7_delta_type_mismatch_fails.2 sampleHandle ⟨none, [(0, .text "hi")]⟩
      0 "y" "hi" (by decide)⟩

end Kepoki

namespace Kepoki

/-! ## Theorems about the Agent Task command loop -/

theorem handleCommand_paused_preserved (s s' : AgentState) (c : AgentCommand)
    (hc : c ≠ AgentCommand.unpause) (hcont : handleCommand s c = .continued s')
    (hp : s.paused = true) : s'.paused = true := by
  cases c with
  | exit => exact CommandStep.noConfusion hcont
  | pause => injection hcont with h1; rw [← h1]
  | unpause => exact absurd rfl hc
  | terminate => exact CommandStep.noConfusion hcont
  | dumpState => injection hcont with h1; rw [← h1]; exact hp
  | userMessage t => injection hcont with h1; rw [← h1]; exact hp

theorem drainCommands_beginTurn_not_paused (cmds : List AgentCommand)
    (s s' : AgentState) (hturn : drainCommands s cmds = .beginTurn s') :
    s'.paused = false := by
  induction cmds generalizing s with
  | nil =>
      simp only [drainCommands] at hturn
      split at hturn
      · split at hturn
        · rename_i hcond
          injection hturn with h1
          rw [← h1]
          exact hcond.2
        · exact DrainOutcome.noConfusion hturn
      · exact DrainOutcome.noConfusion hturn
  | cons c rest ih =>
      simp only [drainCommands] at hturn
      rcases hc : handleCommand s c with _ | s1 | _
      · rw [hc] at hturn; exact DrainOutcome.noConfusion hturn
      · rw [hc] at hturn; exact ih s1 hturn
      · rw [hc] at hturn; exact DrainOutcome.noConfusion hturn

theorem drainCommands_paused_no_turn (tail : List AgentCommand) (s0 s1 : AgentState)
    (hp : s0.paused = true) (hnu : AgentCommand.unpause ∉ tail) :
    drainCommands s0 tail ≠ .beginTurn s1 := by
  induction tail generalizing s0 with
  | nil =>
      intro hx
      simp only [drainCommands] at hx
      split at hx
      · split at hx
        · rename_i hcond
          rw [hp] at hcond
          exact Bool.noConfusion hcond.2
        · exact DrainOutcome.noConfusion hx
      · exact DrainOutcome.noConfusion hx
  | cons c rest ih =>
      simp only [drainCommands]
      rcases hc : handleCommand s0 c with _ | s2 | _
      · exact fun hx => DrainOutcome.noConfusion hx
      · have hcne : c ≠ AgentCommand.unpause := fun he => hnu (he ▸ List.mem_cons_self c rest)
        have hrest : AgentCommand.unpause ∉ rest := fun hm => hnu (List.mem_cons_of_mem c hm)
        exact ih s2 (handleCommand_paused_preserved s0 s2 c hcne hc hp) hrest
      · exact fun hx => DrainOutcome.noConfusion hx

/-- Claim C8: a backend turn begins only with the paused flag clear, so the
Agent Task never invokes Backend::messages while paused; concretely, from a
fresh state the pending queue Pause then UserMessage x drains to idling with
the message appended and the flag set (no backend call); while paused, no
command sequence free of Unpause can begin a turn; and a subsequent Unpause
lets the pending trailing user message trigger the turn
(agent.rs lines 86-120, 228-235, 242-248). -/
theorem c8_pause_blocks_backend_call (x : String) (s s' : AgentState)
    (cmds : List AgentCommand)
    (hturn : drainCommands s cmds = .beginTurn s') :
    s'.paused = false ∧
    drainCommands ⟨[], false⟩ [AgentCommand.pause, AgentCommand.userMessage x] =
      .idle ⟨[⟨.user, [.text x]⟩], true⟩ ∧
    (∀ (tail : List AgentCommand) (s0 s1 : AgentState), s0.paused = true →
      AgentCommand.unpause ∉ tail → drainCommands s0 tail ≠ .beginTurn s1) ∧
    drainCommands ⟨[⟨.user, [.text x]⟩], true⟩ [AgentCommand.unpause] =
      .beginTurn ⟨[⟨.user, [.text x]⟩], false⟩ := by
  refine ⟨drainCommands_beginTurn_not_paused cmds s s' hturn, rfl, ?_, rfl⟩
  intro tail s0 s1 hp hnu
  exact drainCommands_paused_no_turn tail s0 s1 hp hnu

/-- Witness for C8 at a concrete input: a trailing user message with the flag
clear begins a turn. -/
theorem c8_pause_blocks_backend_witness :
    (⟨[⟨.user, [.text "x"]⟩], false⟩ : AgentState).paused = false ∧
    drainCommands ⟨[], false⟩ [AgentCommand.pause, AgentCommand.userMessage "x"] =
      .idle ⟨[⟨.user, [.text "x"]⟩], true⟩ ∧
    (∀ (tail : List AgentCommand) (s0 s1 : AgentState), s0.paused = true →
      AgentCommand.unpause ∉ tail → drainCommands s0 tail ≠ .beginTurn s1) ∧
    drainCommands ⟨[⟨.user, [.text "x"]⟩], true⟩ [AgentCommand.unpause] =
      .beginTurn ⟨[⟨.user, [.text "x"]⟩], false⟩ :=
  c8_pause_blocks_backend_call "x" ⟨[⟨.user, [.text "x"]⟩], false⟩
    ⟨[⟨.user, [.text "x"]⟩], false⟩ [] (by decide)

/-! ## Theorems about Runtime::recv and Runtime::send -/

/-- Counterexample for C3 as stated: a spawned agent has exited (its thread
join result and its closed event channel are resolved bookkeeping); the
first recv consumes the completion event, the second consumes the
closed-channel marker (returning AgentNotFound), and the third recv — made
after the spawn, after the termination event was consumed — returns
NoRunningAgents again, contradicting the claim that recv never returns
NoRunningAgents after a spawn. -/
theorem c3_no_running_agents_returns_after_spawn :
    recvStep ⟨[(sampleHandle, .ok .success)], [(sampleHandle, [])]⟩ true =
      (.ok (.completed sampleHandle), ⟨[], [(sampleHandle, [])]⟩) ∧
    recvStep ⟨[], [(sampleHandle, [])]⟩ true =
      (.error (.agentNotFound sampleHandle), ⟨[], []⟩) ∧
    recvStep ⟨[], []⟩ true = (.error .noRunningAgents, ⟨[], []⟩) := by
  refine ⟨?_, ?_, ?_⟩ <;> rfl

/-- Claim C3 (amended): recv on a runtime with no spawned agent fails with
NoRunningAgents; while any per-agent bookkeeping entry remains (a pending
thread-completion result or an event-channel wait), recv never returns
NoRunningAgents — but once a terminated agent's completion result and its
closed-channel marker have both been consumed, the bookkeeping is empty and
recv returns NoRunningAgents again (runtime/mod.rs lines 121-150). -/
theorem c3_recv_no_agents_amended (st : RecvState) (b : Bool)
    (hne : st.threadJoin ≠ [] ∨ st.recvJoin ≠ []) :
    (recvStep ⟨[], []⟩ b).1 = .error .noRunningAgents ∧
    (recvStep st b).1 ≠ .error KepokiError.noRunningAgents := by
  refine ⟨rfl, ?_⟩
  rcases st with ⟨tj, rj⟩
  rcases tj with _ | ⟨⟨th, tr⟩, tjs⟩ <;> rcases rj with _ | ⟨⟨rh, res⟩, rjs⟩
  · simp at hne
  · cases b <;> rcases res with _ | ⟨e, es⟩ <;> simp [recvStep]
  · cases b <;> rcases tr with e | x <;> simp [recvStep]
  · cases b <;> rcases tr with e | x <;> rcases res with _ | ⟨e', es⟩ <;> simp [recvStep]

/-- Witness for C3's amended theorem at a concrete state with one pending
thread-completion entry. -/
theorem c3_recv_no_agents_witness :
    (recvStep ⟨[], []⟩ true).1 = .error .noRunningAgents ∧
    (recvStep ⟨[(sampleHandle, .ok .success)], []⟩ true).1 ≠
      .error KepokiError.noRunningAgents :=
  c3_recv_no_agents_amended ⟨[(sampleHandle, .ok .success)], []⟩ true
    (Or.inl (by decide))

/-- Counterexample for C9 as stated: sending the Terminate command with a
handle never returned by spawn_agent does not fail with AgentNotFound — it
hits the todo!() interception (runtime/mod.rs lines 106-108) and panics
before the handle is even looked up. -/
theorem c9_terminate_send_panics :
    send ⟨[]⟩ sampleHandle .terminate = .panicked ∧
    send ⟨[]⟩ sampleHandle .terminate ≠ .err (.agentNotFound sampleHandle) := by
  refine ⟨rfl, by decide⟩

/-- Claim C9 (amended): for every command other than Terminate,
Runtime::send with a handle that is absent from the command-emitter map
(never returned by spawn_agent) or whose command-channel receiver has been
dropped fails with AgentNotFound; the lookup-and-send path performs no
blocking operation (unbounded-channel send always succeeds immediately).
Terminate instead panics at the unimplemented todo!(). -/
theorem c9_send_unknown_agent_fails (st : SendState) (h : AgentHandle)
    (c : AgentCommand) (hc : c ≠ AgentCommand.terminate)
    (habsent : lookupEmitter st h = none ∨ lookupEmitter st h = some false) :
    send st h c = .err (.agentNotFound h) := by
  rcases habsent with h1 | h1 <;> simp [send, hc, h1]

/-- Witness for C9's amended theorem: an Exit command to an unregistered
handle on an empty runtime. -/
theorem c9_send_unknown_agent_witness :
    send ⟨[]⟩ sampleHandle .exit = .err (.agentNotFound sampleHandle) :=
  c9_send_unknown_agent_fails ⟨[]⟩ sampleHandle .exit (by decide) (Or.inl (by decide))

end Kepoki

/-- The ApiError decoded from the body of the spec's end-to-end scenario C. -/
def overloadedApiError : Anthropoki.ApiError := ⟨⟨"overloaded_error", "busy"⟩⟩

/-- Claim C2 (code divergence witness): on a non-2xx status whose body
decodes to the overloaded_error ApiError, messages_stream does return
Err(Api(...)), whose display is exactly "overloaded_error - busy" — and had
AnthropicBackend::messages propagated it as the CustomError it constructs,
the agent's termination reason would be that very string.  But
AnthropicBackend::messages calls unwrap after map_err
(kepoki-anthropic/src/lib.rs lines 119-120), so it panics instead of
returning the error: the agent thread dies by panic and the runtime reports
a join failure, not Terminated("overloaded_error - busy"). -/
theorem c2_overloaded_error_panics :
    Anthropoki.messagesStreamStatusCheck false 529 (some overloadedApiError) "" =
      .error (.api overloadedApiError) ∧
    Anthropoki.anthropicErrorDisplay (.api overloadedApiError) = "overloaded_error - busy" ∧
    Kepoki.kepokiErrorDisplay
      (.customError (Anthropoki.anthropicErrorDisplay (.api overloadedApiError))) =
      "overloaded_error - busy" ∧
    KepokiAnthropic.backendMessages
      (Anthropoki.messagesStreamStatusCheck false 529 (some overloadedApiError) "") =
      .panicked := by
  refine ⟨rfl, rfl, rfl, rfl⟩

namespace Anthropoki

/-! ## Theorems about the frame parser -/

theorem splitLines_append (a b : List Char) :
    splitLines (a ++ b) =
      ((splitLines a).1 ++ (splitLines ((splitLines a).2 ++ b)).1,
        (splitLines ((splitLines a).2 ++ b)).2) := by
  induction a with
  | nil => simp [splitLines]
  | cons c a ih =>
      by_cases hc : c = '\n'
      · subst hc
        simp [splitLines, ih]
      · rcases hsa : splitLines a with ⟨sl, sp⟩
        rcases sl with _ | ⟨l, ls⟩
        · rcases hx : splitLines (sp ++ b) with ⟨xl, xp⟩
          rcases xl with _ | ⟨x, xs⟩ <;>
            simp [splitLines, consLine, hc, ih, hsa, hx]
        · simp [splitLines, consLine, hc, ih, hsa]

theorem newline_not_mem_splitLines_snd (x : List Char) :
    '\n' ∉ (splitLines x).2 := by
  induction x with
  | nil => simp [splitLines]
  | cons c cs ih =>
      by_cases hc : c = '\n'
      · subst hc; simpa [splitLines] using ih
      · simp only [splitLines, if_neg hc]
        rcases hs : splitLines cs with ⟨sl, sp⟩
        rcases sl with _ | ⟨l, ls⟩
        · rw [hs] at ih
          simp only [consLine]
          intro hm
          rcases List.mem_cons.mp hm with he | hm'
          · exact hc he.symm
          · exact ih hm'
        · rw [hs] at ih; simpa [consLine] using ih

theorem splitLines_no_newline (x : List Char) (hx : '\n' ∉ x) :
    splitLines x = ([], x) := by
  induction x with
  | nil => rfl
  | cons c cs ih =>
      have hc : c ≠ '\n' := fun he => hx (he ▸ List.mem_cons_self c cs)
      have hcs : '\n' ∉ cs := fun hm => hx (List.mem_cons_of_mem c hm)
      simp [splitLines, if_neg hc, ih hcs, consLine]

end Anthropoki

namespace Anthropoki

theorem drainLines_append {α : Type} (dec : List Char → Except String (Option α))
    (xs ys : List (List Char)) (lp : Nat) (data : Option (Option α)) (acc : List α) :
    drainLines dec (xs ++ ys) lp data acc =
      match drainLines dec xs lp data acc with
      | .term ev t => .term ev t
      | .need lp' d' acc' => drainLines dec ys lp' d' acc' := by
  induction xs generalizing lp data acc with
  | nil => simp [drainLines]
  | cons line xs ih =>
      simp only [List.cons_append, drainLines]
      rcases lp with _ | _ | _ | lp
      · by_cases hpfx : (dropPrefix? ("event: ".toList) (trimChars line)).isSome
        · simp only [if_pos hpfx]; exact ih 1 data acc
        · simp only [if_neg hpfx]
      · rcases hdp : dropPrefix? ("data: ".toList) (trimChars line) with _ | payload
        · simp
        · rcases hdec : dec payload with e | d
          · simp [hdec]
          · simp only [hdec]; exact ih 2 (some d) acc
      · rcases data with _ | d
        · simp
        · rcases d with _ | e
          · simp
          · simp only []; exact ih 0 none (acc ++ [e])
      · simp

theorem drainFlat_append {α : Type} (dec : List Char → Except String (Option α))
    (xs ys : List (List Char)) (lp : Nat) (data : Option (Option α)) (acc : List α) :
    drainFlat dec (xs ++ ys) lp data acc =
      match drainLines dec xs lp data acc with
      | .term ev t => (ev, t)
      | .need lp' d' acc' => drainFlat dec ys lp' d' acc' := by
  rw [drainFlat, drainLines_append]
  rcases h : drainLines dec xs lp data acc with ⟨ev, t⟩ | ⟨lp', d', acc'⟩ <;>
    simp [drainFlat]

theorem drainAux_flat {α : Type} (dec : List Char → Except String (Option α))
    (cs : List (List Char)) (lines : List (List Char)) (pbuf : List Char)
    (lp : Nat) (data : Option (Option α)) (acc : List α)
    (hp : (splitLines pbuf).1 = []) :
    drainAux dec (cs.map Chunk.bytes) lines pbuf lp data acc =
      drainFlat dec (lines ++ (splitLines (pbuf ++ cs.flatten)).1) lp data acc := by
  induction cs generalizing lines pbuf lp data acc with
  | nil =>
      simp only [List.map_nil, List.flatten_nil, List.append_nil, hp, drainAux]
      rcases h : drainLines dec lines lp data acc with ⟨ev, t⟩ | ⟨lp', d', acc'⟩ <;>
        simp [drainFlat, h]
  | cons bs cs ih =>
      have hassoc : pbuf ++ (bs :: cs).flatten = (pbuf ++ bs) ++ cs.flatten := by
        simp [List.flatten_cons]
      rw [hassoc, splitLines_append, drainFlat_append]
      simp only [List.map_cons, drainAux]
      have hp2 : (splitLines (splitLines (pbuf ++ bs)).2).1 = [] := by
        rw [splitLines_no_newline _ (newline_not_mem_splitLines_snd (pbuf ++ bs))]
      rcases h : drainLines dec lines lp data acc with ⟨ev, t⟩ | ⟨lp', d', acc'⟩
      · rfl
      · exact ih (splitLines (pbuf ++ bs)).1 (splitLines (pbuf ++ bs)).2 lp' d' acc' hp2

end Anthropoki

namespace Anthropoki

theorem drain_eq_drainFlat {α : Type} (dec : List Char → Except String (Option α))
    (cs : List (List Char)) :
    drain dec (cs.map Chunk.bytes) = drainFlat dec (splitLines cs.flatten).1 0 none [] := by
  have h := drainAux_flat dec cs [] [] 0 none [] (by rfl)
  simpa [drain] using h

/-- Claim C5: chunk-boundary invariance of the frame parser.  For one fixed
byte sequence and any two ways of cutting it into chunks (mid-line cuts
included), draining MessageStream::recv over the two chunkings delivers
identical event sequences with identical terminal outcomes: the drain result
is a function of the concatenated bytes alone. -/
theorem c5_chunk_invariance {α : Type} (dec : List Char → Except String (Option α))
    (c1 c2 : List (List Char)) (h : c1.flatten = c2.flatten) :
    drain dec (c1.map Chunk.bytes) = drain dec (c2.map Chunk.bytes) := by
  rw [drain_eq_drainFlat, drain_eq_drainFlat, h]

/-- Witness for C5 at a concrete input: one eighteen-byte two-frame prefix
stream chunked whole versus chunked with a cut in the middle of the first
line. -/
theorem c5_chunk_invariance_witness :
    drain dec0 ([("event: a\ndata: b\n\n".toList)].map Chunk.bytes) =
      drain dec0 ([("event: a\ndata: b\n\n".toList).take 5,
        ("event: a\ndata: b\n\n".toList).drop 5].map Chunk.bytes) :=
  c5_chunk_invariance dec0 [("event: a\ndata: b\n\n".toList)]
    [("event: a\ndata: b\n\n".toList).take 5, ("event: a\ndata: b\n\n".toList).drop 5]
    (by decide)

/-- Counterexample for C4 as stated: the transport delivers the bytes of a
label line plus an incomplete payload line and then closes; recv returns
end-of-stream (Ok(None)) even though a partial frame remains buffered — the
label line was consumed and the bytes "data: x" still sit in the buffer.
recv does not wait for "no partial frame remains"; it returns end-of-stream
as soon as closure is seen with no complete line left (lines 607-611). -/
theorem c4_eos_despite_partial_frame :
    recv dec0 [] [Chunk.bytes ("event: ping\ndata: x".toList)] =
      ⟨.eos, [], "data: x".toList, []⟩ ∧
    ("data: x".toList ≠ ([] : List Char)) := by
  refine ⟨by decide, by decide⟩

/-- Claim C4 (amended): each successful recv call yields exactly one event
per complete three-line frame consumed — a buffered frame of a valid label
line, a decodable payload line and any third line is consumed exactly, the
rest untouched; a transport error is returned verbatim; and recv returns
end-of-stream once the transport has signaled closure and no complete line
remains buffered, even if a partial frame remains (lines 586-613). -/
theorem c4_recv_frame_semantics {α : Type} (dec : List Char → Except String (Option α))
    (chunks : List Chunk) (line1 line2 line3 : List Char)
    (restLines : List (List Char)) (pbuf : List Char) (ev : Option α)
    (payload : List Char) (e : String)
    (h1 : (dropPrefix? ("event: ".toList) (trimChars line1)).isSome = true)
    (h2 : dropPrefix? ("data: ".toList) (trimChars line2) = some payload)
    (h3 : dec payload = .ok ev) :
    recvAux dec chunks (line1 :: line2 :: line3 :: restLines) pbuf 0 none
      = ⟨.frame ev, restLines, pbuf, chunks⟩ ∧
    recvAux dec (Chunk.ioErr e :: chunks) [] pbuf 0 none
      = ⟨.transportError e, [], pbuf, chunks⟩ ∧
    recvAux dec ([] : List Chunk) [] pbuf 0 none = ⟨.eos, [], pbuf, []⟩ := by
  refine ⟨?_, rfl, rfl⟩
  cases chunks with
  | nil => simp only [recvAux, stepLines, h1, h2, h3, eq_self_iff_true, if_true]
  | cons c rest =>
      cases c <;> simp only [recvAux, stepLines, h1, h2, h3, eq_self_iff_true, if_true]

/-- Witness for C4's amended theorem at a concrete frame. -/
theorem c4_recv_frame_semantics_witness :
    recvAux dec0 [] ["event: ping".toList, "data: x".toList, [], []] [] 0 none
      = ⟨.frame (some ()), [[]], [], []⟩ ∧
    recvAux dec0 [Chunk.ioErr "boom"] [] [] 0 none
      = ⟨.transportError "boom", [], [], []⟩ ∧
    recvAux dec0 ([] : List Chunk) [] [] 0 none = ⟨.eos, [], [], []⟩ :=
  c4_recv_frame_semantics dec0 [] ("event: ping".toList) ("data: x".toList) []
    [[]] [] (some ()) ("x".toList) "boom" (by decide) (by decide) (by decide)

/-- Claim C10: the frame parser is not total on malformed frames.  For every
decoder, feeding a frame whose label line does not begin with "event: "
drives recv into the failed assert! (line 597) — the panicked outcome — and
feeding a valid label followed by a payload line that does not begin with
"data: " drives recv into the failed unwrap (line 598); neither malformed
input produces the returned decode-error value. -/
theorem c10_bad_frame_label_panics {α : Type}
    (dec : List Char → Except String (Option α)) :
    recv dec [] [Chunk.bytes ("bogus: x\n".toList)] = ⟨.panicked, [], [], []⟩ ∧
    recv dec [] [Chunk.bytes ("event: ping\nbogus\n".toList)] = ⟨.panicked, [], [], []⟩ ∧
    (RecvOut.panicked : RecvOut α) ≠ .decodeError := by
  refine ⟨rfl, rfl, fun hx => RecvOut.noConfusion hx⟩

end Anthropoki

namespace Anthropoki

theorem drainLines_via_stepLines {α : Type} (dec : List Char → Except String (Option α))
    (lines : List (List Char)) :
    ∀ (lp : Nat) (data : Option (Option α)) (acc : List α),
    drainLines dec lines lp data acc =
      match stepLines dec lines lp data with
      | .ret (.frame (some ev)) rest => drainLines dec rest 0 none (acc ++ [ev])
      | .ret (.frame none) _ => .term acc .eos
      | .ret .eos _ => .term acc .eos
      | .ret .decodeError _ => .term acc .decodeError
      | .ret (.transportError e) _ => .term acc (.transportError e)
      | .ret .panicked _ => .term acc .panicked
      | .need lp' d' => .need lp' d' acc := by
  induction lines with
  | nil => intro lp data acc; rfl
  | cons line rest ih =>
      intro lp data acc
      simp only [drainLines, stepLines]
      rcases lp with _ | _ | _ | lp
      · by_cases hpfx : (dropPrefix? ("event: ".toList) (trimChars line)).isSome
        · simp only [if_pos hpfx]; exact ih 1 data acc
        · simp only [if_neg hpfx]
      · rcases hdp : dropPrefix? ("data: ".toList) (trimChars line) with _ | payload
        · rfl
        · rcases hdec : dec payload with e | d
          · simp [hdec]
          · simp only [hdec]; exact ih 2 (some d) acc
      · rcases data with _ | d
        · rfl
        · rcases d with _ | ev
          · rfl
          · rfl
      · rfl

/-- The full drain is exactly what repeatedly calling MessageStream::recv
delivers: each recv call yielding Ok(Some(event)) appends that event and the
drain continues from the returned parser state with a fresh lines_parsed
counter; a call yielding Ok(None), an error, or a panic ends the drain with
the matching terminal. -/
theorem drainAux_via_recvAux {α : Type} (dec : List Char → Except String (Option α))
    (chunks : List Chunk) :
    ∀ (lines : List (List Char)) (pbuf : List Char) (lp : Nat)
      (data : Option (Option α)) (acc : List α),
    drainAux dec chunks lines pbuf lp data acc =
      match recvAux dec chunks lines pbuf lp data with
      | ⟨.frame (some ev), ls, pb, cs⟩ => drainAux dec cs ls pb 0 none (acc ++ [ev])
      | ⟨.frame none, _, _, _⟩ => (acc, Terminal.eos)
      | ⟨.eos, _, _, _⟩ => (acc, Terminal.eos)
      | ⟨.decodeError, _, _, _⟩ => (acc, Terminal.decodeError)
      | ⟨.transportError e, _, _, _⟩ => (acc, Terminal.transportError e)
      | ⟨.panicked, _, _, _⟩ => (acc, Terminal.panicked) := by
  induction chunks with
  | nil =>
      intro lines pbuf lp data acc
      simp only [drainAux, recvAux]
      rw [drainLines_via_stepLines]
      rcases hs : stepLines dec lines lp data with ⟨out, restL⟩ | ⟨lp', d'⟩
      · rcases out with d | _ | _ | e | _
        · rcases d with _ | ev <;> rfl
        · rfl
        · rfl
        · rfl
        · rfl
      · rfl
  | cons c rest ih =>
      intro lines pbuf lp data acc
      cases c with
      | bytes bs =>
          simp only [drainAux, recvAux]
          rw [drainLines_via_stepLines]
          rcases hs : stepLines dec lines lp data with ⟨out, restL⟩ | ⟨lp', d'⟩
          · rcases out with d | _ | _ | e | _
            · rcases d with _ | ev <;> rfl
            · rfl
            · rfl
            · rfl
            · rfl
          · exact ih (splitLines (pbuf ++ bs)).1 (splitLines (pbuf ++ bs)).2 lp' d' acc
      | ioErr e =>
          simp only [drainAux, recvAux]
          rw [drainLines_via_stepLines]
          rcases hs : stepLines dec lines lp data with ⟨out, restL⟩ | ⟨lp', d'⟩
          · rcases out with d | _ | _ | e' | _
            · rcases d with _ | ev <;> rfl
            · rfl
            · rfl
            · rfl
            · rfl
          · rfl

end Anthropoki
